import Mathlib

/-!
Shallow embedding of `src/isoForestImport.py` (anomaly detection over a
univariate time series via several feature views scored by an isolation
forest, merged into one aligned table).

Modelling conventions:
* a pandas cell is `Option Cell` (`none` = NaN); numeric values are `ℚ`,
  datetimes are abstract `ℕ` stamps (`Cell.dt`), calendar dates obtained by
  `.dt.date` truncation are tagged `Cell.day`;
* a DataFrame is an ordered list of named columns; every frame the source
  builds starts from `pd.DataFrame()` and therefore carries the default
  integer RangeIndex, so column operations are positional;
* the external `IsolationForest(random_state=seed)` scorer is an opaque
  deterministic function of the fitted matrix, one per seed
  (`ScorerF : ℕ → Scorer`); `fit` on an empty matrix raises, which is
  modelled by the `Except` error path;
* plotting (`getPlot`, matplotlib) renders nothing that reaches the
  returned frames, but its anomaly lookup
  `dfResults.loc[dfResults['Anomaly'] == -1, ['Date', 'Incidents']]`
  (line 40) raises a KeyError when one of those columns is absent from the
  frame being plotted (pandas ≥ 1.0), so the existence checks of that
  lookup are modelled; the rendering itself is not.
-/

namespace IsoForest

/-- A defined pandas cell: a number, a datetime stamp, or a calendar date
(the result of `.dt.date`). -/
inductive Cell where
  | num : ℚ → Cell
  | dt : ℕ → Cell
  | day : ℕ → Cell
deriving DecidableEq

/-- A pandas column: entries are `none` exactly where pandas holds NaN/NaT. -/
abbrev Col := List (Option Cell)

/-- A pandas DataFrame on the default RangeIndex: ordered named columns. -/
abbrev DF := List (String × Col)

/-- Behaviour of one fitted `IsolationForest`: per-row continuous scores
(`decision_function`) and per-row ±1 labels (`predict`), both evaluated on
the matrix the model was fit to (the source always scores in-sample). -/
structure Scorer where
  decision : List (List ℚ) → List ℚ
  predict : List (List ℚ) → List ℚ

/-- A scorer is well-formed when it returns one score and one label per row. -/
def Scorer.Wf (c : Scorer) : Prop :=
  ∀ X, (c.decision X).length = X.length ∧ (c.predict X).length = X.length

/-- The scorer family: `S seed` is the behaviour of
`IsolationForest(random_state=seed)`. -/
abbrev ScorerF := ℕ → Scorer

/-- `isna().sum()` of a column. -/
def countNone (c : List (Option α)) : ℕ :=
  c.countP (fun o => o.isNone)

/-- `dropna()` of a column. -/
def dropna (c : List (Option α)) : List α :=
  c.filterMap id

/-- A fully defined numeric column. -/
def numCol (xs : List ℚ) : Col :=
  xs.map (fun v => some (Cell.num v))

/-- Height (row count) of a frame: pandas `concat` pads every column to the
longest index, and all indexes here are ranges, so the height is the longest
column. -/
def dfHeight (df : DF) : ℕ :=
  df.foldr (fun c m => max c.2.length m) 0

/-- Pad a column with NaN at the bottom up to height `m` (index alignment of
a short RangeIndexed column inside a taller frame). -/
def padCol (m : ℕ) (c : Col) : Col :=
  c ++ List.replicate (m - c.length) none

/-- Ordered concatenation of a list of lists. -/
def concatMap (f : α → List β) : List α → List β
  | [] => []
  | a :: t => f a ++ concatMap f t

/-- `pd.concat(dfs, axis=1)` for RangeIndexed frames: the result index is the
range of the maximal height and every column is padded to it. -/
def concatDF (dfs : List DF) : DF :=
  concatMap (fun df => df.map (fun c => (c.1, padCol ((dfs.map dfHeight).foldr max 0) c.2))) dfs

/-- `df.drop(name, 1)`: remove every column with the given name. -/
def dropColumn (nm : String) (df : DF) : DF :=
  df.filter (fun c => c.1 ≠ nm)

/-- `df.columns = nms`: positional renaming of all columns. -/
def setColumns (nms : List String) (df : DF) : DF :=
  nms.zip (df.map (·.2))

/-- `df.columns.values[i] = nm`: positional renaming of one column. -/
def renameAt (i : ℕ) (nm : String) (df : DF) : DF :=
  ((List.range df.length).zip df).map (fun p => if p.1 = i then (nm, p.2.2) else p.2)

/-- First column with the given name, if any. -/
def colOf (nm : String) (df : DF) : Option Col :=
  (df.find? (fun c => c.1 = nm)).map (·.2)

/-- `getPlot`: the rendering is a pure side effect, but line 40 evaluates
`dfResults['Anomaly']` and then
`dfResults.loc[mask, ['Date', 'Incidents']]`, which raise a KeyError when
the plotted frame lacks one of those columns; only those existence checks
are observable to the caller. -/
def getPlot (dfResults : DF) : Except String Unit :=
  if (dfResults.find? (fun c => c.1 = "Anomaly")).isNone then .error "KeyError: Anomaly" else
  if (dfResults.find? (fun c => c.1 = "Date")).isNone then .error "KeyError: Date" else
  if (dfResults.find? (fun c => c.1 = "Incidents")).isNone then .error "KeyError: Incidents" else
  .ok ()

/-- `dataCol.diff()`: NaN at position 0, then `xs[i] - xs[i-1]`. -/
def diffList (xs : List ℚ) : List (Option ℚ) :=
  match xs with
  | [] => []
  | x :: tail => none :: tail.zipWith (fun a b => some (a - b)) (x :: tail)

/-- `dataCol.rolling(w).mean()`: NaN until the window is fully populated
(also everywhere when `w = 0`, where the window holds no observation), then
the trailing mean of the last `w` values. -/
def rollingMean (w : ℕ) (xs : List ℚ) : List (Option ℚ) :=
  (List.range xs.length).map (fun i =>
    if w = 0 ∨ i + 1 < w then none
    else some (((xs.drop (i + 1 - w)).take w).sum / (w : ℚ)))

/-- The Delta feature matrix of `getBaseDelta`:
`pd.concat([dataCol.diff(), dataCol], axis=1).dropna()` — rows
`[difference, raw value]` restricted to where the difference is defined. -/
def deltaMatrix (xs : List ℚ) : List (List ℚ) :=
  ((diffList xs).zip xs).filterMap (fun p => p.1.map (fun d => [d, p.2]))

/-- The per-iteration feature matrix of `getWindowsDelta` (lines 238-242):
literally the same construction as `getBaseDelta`'s, recomputed from the raw
series each iteration and ignoring the rolling column. -/
def windowsDeltaPD (xs : List ℚ) : List (List ℚ) :=
  ((diffList xs).zip xs).filterMap (fun p => p.1.map (fun d => [d, p.2]))

/-- The frame `getBase` returns: scores and labels of the one-column matrix
of raw values, the raw values, and — depending on the `time` flag — a `Date`
column holding truncated calendar dates (`time == None`), full datetimes
(`time == True`), or nothing at all (any other value, e.g. `False`). -/
def baseFrame (S : ScorerF) (dataCol : List ℚ) (timeCol : List ℕ) (time : Option Bool) : DF :=
  ([("baseScores", numCol ((S 42).decision (dataCol.map (fun v => [v])))),
    ("Anomaly", numCol ((S 42).predict (dataCol.map (fun v => [v])))),
    ("Incidents", numCol dataCol)] : DF) ++
    (match time with
     | none => [("Date", timeCol.map (fun t => some (Cell.day t)))]
     | some true => [("Date", timeCol.map (fun t => some (Cell.dt t)))]
     | some false => [])

/-- `getBase`: score the raw values (`clf = IsolationForest(random_state=42)`,
fit to the one-column matrix of raw values, raising on an empty series),
then plot (line 96) — the plot's lookup aborts with a KeyError when the
frame has no `Date` column, i.e. when `time` is neither `None` nor `True` —
and return the frame. -/
def getBase (S : ScorerF) (dataCol : List ℚ) (timeCol : List ℕ) (time : Option Bool) :
    Except String DF :=
  if (dataCol.map (fun v => [v])).isEmpty then .error "ValueError: zero samples" else
  match getPlot (baseFrame S dataCol timeCol time) with
  | .error e => .error e
  | .ok _ => .ok (baseFrame S dataCol timeCol time)

/-- The frame `getBaseDelta` builds before its column drops (lines 133-141):
scores/labels of the Delta matrix, the trimmed raw values, the trimmed delta
values and the trimmed timestamps. This is the frame the plot at line 143
receives, so its `Anomaly`, `Date` and `Incidents` columns are all present. -/
def deltaFramePre (S : ScorerF) (dataCol : List ℚ) (timeCol : List ℕ) : DF :=
  [("deltaScores", numCol ((S 42).decision (deltaMatrix dataCol))),
   ("Anomaly", numCol ((S 42).predict (deltaMatrix dataCol))),
   ("Incidents", numCol (dataCol.drop 1)),
   ("deltaIncidents", ((diffList dataCol).drop 1).map (Option.map Cell.num)),
   ("Date", (timeCol.drop 1).map (fun t => some (Cell.dt t)))]

/-- The frame `getBaseDelta` returns: the pre-drop frame after dropping its
own `Date` and `Incidents` columns and renaming position 1 to
`deltaAnomaly`. -/
def deltaFrame (S : ScorerF) (dataCol : List ℚ) (timeCol : List ℕ) : DF :=
  renameAt 1 "deltaAnomaly" (dropColumn "Incidents" (dropColumn "Date"
    (deltaFramePre S dataCol timeCol)))

/-- `getBaseDelta`: fit `IsolationForest(random_state=42)` to the Delta
matrix (raises on an empty matrix, i.e. when the series is shorter than 2),
plot the pre-drop frame, then drop/rename and return. -/
def getBaseDelta (S : ScorerF) (dataCol : List ℚ) (timeCol : List ℕ) :
    Except String DF :=
  if (deltaMatrix dataCol).isEmpty then .error "ValueError: zero samples" else
  match getPlot (deltaFramePre S dataCol timeCol) with
  | .error e => .error e
  | .ok _ => .ok (deltaFrame S dataCol timeCol)

/-- The frame one `getWindows` iteration builds before its column drops
(lines 188-193): scores/labels of the dropna'd rolling-mean column, the
rolling values, the trimmed raw values and the trimmed timestamps. This is
the frame the plot at line 195 receives. -/
def windowFramePre (S : ScorerF) (dataCol : List ℚ) (timeCol : List ℕ) (val : ℕ) : DF :=
  [("scores", numCol ((S 42).decision ((dropna (rollingMean val dataCol)).map (fun v => [v])))),
   ("Anomaly", numCol ((S 42).predict ((dropna (rollingMean val dataCol)).map (fun v => [v])))),
   ("windowIncidents", numCol (dropna (rollingMean val dataCol))),
   ("Incidents", numCol (dataCol.drop (countNone (rollingMean val dataCol)))),
   ("Date", (timeCol.drop (countNone (rollingMean val dataCol))).map (fun t => some (Cell.dt t)))]

/-- One iteration of the `getWindows` loop after the fit guard and the plot:
drop the `Date` and `Incidents` columns and rename positionally to the
window-tagged names. -/
def windowFrame (S : ScorerF) (dataCol : List ℚ) (timeCol : List ℕ) (val : ℕ) : DF :=
  setColumns ["window" ++ toString val ++ "Scores",
              "window" ++ toString val ++ "Anomaly",
              "window" ++ toString val ++ "Incidents"]
    (dropColumn "Incidents" (dropColumn "Date" (windowFramePre S dataCol timeCol val)))

/-- `getWindows`: loop over the window list, accumulating the raw dropna'd
rolling columns (`rollingDF`, consumed by `getWindowsDelta`) and the
`axis=1` concatenation of the scored window frames (`windowResults`).
`IsolationForest.fit` raises on an empty matrix (series shorter than the
window, or a zero window whose rolling mean is all-NaN). -/
def getWindows (S : ScorerF) (dataCol : List ℚ) (timeCol : List ℕ) :
    List ℕ → List (List ℚ) → DF → Except String (List (List ℚ) × DF)
  | [], rollingDF, windowResults => .ok (rollingDF, windowResults)
  | val :: rest, rollingDF, windowResults =>
    if (dropna (rollingMean val dataCol)).isEmpty then .error "ValueError: zero samples" else
    match getPlot (windowFramePre S dataCol timeCol val) with
    | .error e => .error e
    | .ok _ =>
      getWindows S dataCol timeCol rest
        (rollingDF ++ [dropna (rollingMean val dataCol)])
        (concatDF [windowResults, windowFrame S dataCol timeCol val])

/-- The frame one `getWindowsDelta` iteration builds before its column drops
(lines 246-251): the features are the raw-series delta matrix (the rolling
column bound by the loop is never used), so only the names depend on the
window size. This is the frame the plot at line 254 receives. -/
def windowDeltaFramePre (S : ScorerF) (dataCol : List ℚ) (timeCol : List ℕ) : DF :=
  [("scores", numCol ((S 42).decision (windowsDeltaPD dataCol))),
   ("Anomaly", numCol ((S 42).predict (windowsDeltaPD dataCol))),
   ("Incidents", numCol (dataCol.drop (countNone (diffList dataCol)))),
   ("deltaIncidents", ((diffList dataCol).drop (countNone (diffList dataCol))).map (Option.map Cell.num)),
   ("Date", (timeCol.drop (countNone (diffList dataCol))).map (fun t => some (Cell.dt t)))]

/-- One iteration of the `getWindowsDelta` loop after the fit guard and the
plot: drop the `Date` and `Incidents` columns and rename positionally to the
window-tagged names. -/
def windowDeltaFrame (S : ScorerF) (dataCol : List ℚ) (timeCol : List ℕ) (val : ℕ) : DF :=
  setColumns ["windowDelta" ++ toString val ++ "Scores",
              "windowDelta" ++ toString val ++ "Anomaly",
              "windowDelta" ++ toString val ++ "Incidents"]
    (dropColumn "Incidents" (dropColumn "Date" (windowDeltaFramePre S dataCol timeCol)))

/-- `getWindowsDelta`: iterate over `zip(windowList, rollingDF.iteritems())`
(the zip stops at the shorter of the two), scoring the same delta matrix on
every iteration and concatenating the renamed frames along `axis=1`. -/
def getWindowsDelta (S : ScorerF) (dataCol : List ℚ) (timeCol : List ℕ) :
    List ℕ → List (List ℚ) → DF → Except String DF
  | [], _, windowDeltaResults => .ok windowDeltaResults
  | _ :: _, [], windowDeltaResults => .ok windowDeltaResults
  | val :: restW, _ :: restC, windowDeltaResults =>
    if (windowsDeltaPD dataCol).isEmpty then .error "ValueError: zero samples" else
    match getPlot (windowDeltaFramePre S dataCol timeCol) with
    | .error e => .error e
    | .ok _ =>
      getWindowsDelta S dataCol timeCol restW restC
        (concatDF [windowDeltaResults, windowDeltaFrame S dataCol timeCol val])

/-- `columnData.shift(k)`: every entry moves down `k` rows, NaN enters at the
top, entries shifted past the end are discarded. -/
def shiftDown (k : ℕ) (c : Col) : Col :=
  (List.replicate k none ++ c).take c.length

/-- One pass of the realignment loop of `getIF` (lines 308-312) on one
column: `dropna` followed by index-aligned reassignment puts every defined
entry back at its original row (a no-op on the column), so the observable
effect is the `shift` by the column's NaN count. -/
def realignCol (c : Col) : Col :=
  shiftDown (countNone c) c

/-- The realignment loop over every column of the merged frame. -/
def realignAll (df : DF) : DF :=
  df.map (fun col => (col.1, realignCol col.2))

/-- The row index of a returned frame: every frame the source builds uses
the default integer RangeIndex, never the timestamp index. -/
inductive PIndex where
  | range : ℕ → PIndex
  | datetime : List ℕ → PIndex
deriving DecidableEq

/-- The arguments of `getIF` together with the runtime types of the three
positional arguments (Python is dynamically typed; the asserts at lines
293-295 inspect exactly these types). -/
structure Inputs where
  dataCol : List ℚ
  timeCol : List ℕ
  windowList : List ℕ
  dataIsSeries : Bool
  timeIsDatetimeIndex : Bool
  windowIsList : Bool
  time : Option Bool

/-- The validation `getIF` actually performs: the three type asserts. -/
def validateIF (inp : Inputs) : Bool :=
  inp.dataIsSeries && inp.timeIsDatetimeIndex && inp.windowIsList

/-- `getIF`: assert the three argument types, run the four builders (the
first component returned by `getWindows` is the raw rolling frame, handed to
`getWindowsDelta`; the second is the scored window frame), concatenate
`[baseDF, baseDeltaDF, windowResults, windowDeltaResults]` along `axis=1`,
and realign every column by its NaN count. -/
def getIF (S : ScorerF) (inp : Inputs) : Except String (PIndex × DF) :=
  if inp.dataIsSeries = false then .error "AssertionError: dataCol should be a pandas series" else
  if inp.timeIsDatetimeIndex = false then .error "AssertionError: timeCol should be a pandas DatetimeIndex" else
  if inp.windowIsList = false then .error "AssertionError: windowList should be a list" else
  match getBase S inp.dataCol inp.timeCol inp.time with
  | .error e => .error e
  | .ok baseDF =>
    match getWindows S inp.dataCol inp.timeCol inp.windowList [] [] with
    | .error e => .error e
    | .ok (rollingCol, rollingDF) =>
      match getBaseDelta S inp.dataCol inp.timeCol with
      | .error e => .error e
      | .ok baseDeltaDF =>
        match getWindowsDelta S inp.dataCol inp.timeCol inp.windowList rollingCol [] with
        | .error e => .error e
        | .ok windowDeltaDF =>
          .ok (PIndex.range (dfHeight (concatDF [baseDF, baseDeltaDF, rollingDF, windowDeltaDF])),
               realignAll (concatDF [baseDF, baseDeltaDF, rollingDF, windowDeltaDF]))

/-- Column names contributed by `getBase`, as a function of the `time` flag. -/
def baseNames (time : Option Bool) : List String :=
  ["baseScores", "Anomaly", "Incidents"] ++
    (match time with
     | some false => []
     | _ => ["Date"])

/-- Column names contributed by `getBaseDelta`. -/
def deltaNames : List String :=
  ["deltaScores", "deltaAnomaly", "deltaIncidents"]

/-- Column names of one window view. -/
def windowNames (w : ℕ) : List String :=
  ["window" ++ toString w ++ "Scores",
   "window" ++ toString w ++ "Anomaly",
   "window" ++ toString w ++ "Incidents"]

/-- Column names of one window-delta view. -/
def windowDeltaNames (w : ℕ) : List String :=
  ["windowDelta" ++ toString w ++ "Scores",
   "windowDelta" ++ toString w ++ "Anomaly",
   "windowDelta" ++ toString w ++ "Incidents"]

/-- The full column-name layout of a successful `getIF` run: the Raw group,
then the Delta group, then one Window group per requested window, then one
WindowDelta group per requested window. -/
def resultNames (inp : Inputs) : List String :=
  baseNames inp.time ++ deltaNames ++
    concatMap windowNames inp.windowList ++
    concatMap windowDeltaNames inp.windowList

/-- A run on well-typed, sufficiently long data: the three asserts pass, the
series has at least two points, the timestamp index matches it in length,
and every requested window is positive and no longer than the series. -/
def ValidRun (inp : Inputs) : Prop :=
  inp.dataIsSeries = true ∧ inp.timeIsDatetimeIndex = true ∧ inp.windowIsList = true ∧
  2 ≤ inp.dataCol.length ∧ inp.timeCol.length = inp.dataCol.length ∧
  ∀ w ∈ inp.windowList, 1 ≤ w ∧ w ≤ inp.dataCol.length

instance (inp : Inputs) : Decidable (ValidRun inp) := by
  unfold ValidRun
  infer_instance

/-- A concrete well-formed scorer used to instantiate witnesses: score 0 and
label 1 for every row. -/
def constScorer : Scorer :=
  ⟨fun X => X.map (fun _ => 0), fun X => X.map (fun _ => 1)⟩

/-- The constant scorer family. -/
def constScorerF : ScorerF :=
  fun _ => constScorer

lemma constScorer_wf : constScorer.Wf := by
  intro X
  constructor <;> simp [constScorer]

/-! ### Column and frame basics -/

lemma countNone_append (a b : List (Option α)) :
    countNone (a ++ b) = countNone a + countNone b := by
  simp [countNone, List.countP_append]

lemma countNone_map_some (f : α → β) (l : List α) :
    countNone (l.map (fun t => some (f t))) = 0 := by
  simp [countNone, List.countP_map, Function.comp]

lemma countNone_numCol (xs : List ℚ) : countNone (numCol xs) = 0 :=
  countNone_map_some _ xs

lemma countNone_replicate_none (k : ℕ) : countNone (List.replicate k (none : Option α)) = k := by
  induction k with
  | zero => rfl
  | succ m ih => simp [List.replicate_succ, countNone, List.countP_cons] at ih ⊢; omega

lemma countNone_le_length (c : List (Option α)) : countNone c ≤ c.length :=
  List.countP_le_length _

lemma dropna_length (c : List (Option α)) :
    (dropna c).length = c.length - countNone c := by
  induction c with
  | nil => rfl
  | cons a t ih =>
    have hle : t.countP (fun o => o.isNone) ≤ t.length := List.countP_le_length _
    cases a <;> simp [dropna, List.filterMap_cons, countNone, List.countP_cons] at ih ⊢ <;> omega

lemma dropna_length_le (c : List (Option α)) : (dropna c).length ≤ c.length := by
  have := dropna_length c
  omega

lemma dropna_eq_nil (c : List (Option α)) (h : ∀ o ∈ c, o = none) : dropna c = [] := by
  rw [dropna, List.filterMap_eq_nil_iff]
  intro a ha
  exact h a ha ▸ rfl

lemma padCol_length (m : ℕ) (c : Col) : (padCol m c).length = max m c.length := by
  simp [padCol]
  omega

lemma padCol_self (c : Col) : padCol c.length c = c := by
  simp [padCol]

lemma realignCol_length (c : Col) : (realignCol c).length = c.length := by
  simp [realignCol, shiftDown]

lemma realignCol_of_countNone_zero (c : Col) (h : countNone c = 0) : realignCol c = c := by
  simp [realignCol, h, shiftDown]

lemma realignAll_names (df : DF) : (realignAll df).map (·.1) = df.map (·.1) := by
  simp [realignAll]

lemma mem_concatMap {f : α → List β} {l : List α} {b : β} :
    b ∈ concatMap f l ↔ ∃ a ∈ l, b ∈ f a := by
  induction l with
  | nil => simp [concatMap]
  | cons x t ih => simp [concatMap, ih]

lemma map_concatMap (g : β → γ) (f : α → List β) (l : List α) :
    (concatMap f l).map g = concatMap (fun a => (f a).map g) l := by
  induction l with
  | nil => rfl
  | cons x t ih => simp [concatMap, ih]

lemma concatMap_append (f : α → List β) (l₁ l₂ : List α) :
    concatMap f (l₁ ++ l₂) = concatMap f l₁ ++ concatMap f l₂ := by
  induction l₁ with
  | nil => rfl
  | cons x t ih => simp [concatMap, ih]

lemma concatDF_names (dfs : List DF) :
    (concatDF dfs).map (·.1) = concatMap (fun df => df.map (·.1)) dfs := by
  rw [concatDF, map_concatMap]
  congr 1
  funext df
  simp

lemma mem_concatDF {dfs : List DF} {c : String × Col} :
    c ∈ concatDF dfs ↔
      ∃ df ∈ dfs, ∃ c₀ ∈ df, c = (c₀.1, padCol ((dfs.map dfHeight).foldr max 0) c₀.2) := by
  rw [concatDF, mem_concatMap]
  constructor
  · rintro ⟨df, hdf, hc⟩
    rw [List.mem_map] at hc
    obtain ⟨c₀, hc₀, rfl⟩ := hc
    exact ⟨df, hdf, c₀, hc₀, rfl⟩
  · rintro ⟨df, hdf, c₀, hc₀, rfl⟩
    exact ⟨df, hdf, List.mem_map.mpr ⟨c₀, hc₀, rfl⟩⟩

lemma dfHeight_le (df : DF) (n : ℕ) (h : ∀ c ∈ df, c.2.length ≤ n) : dfHeight df ≤ n := by
  induction df with
  | nil => simp [dfHeight]
  | cons c t ih =>
    rw [dfHeight, List.foldr_cons]
    have h1 := h c (by simp)
    have h2 := ih (fun d hd => h d (by simp [hd]))
    rw [dfHeight] at h2
    omega

lemma le_dfHeight (df : DF) (c : String × Col) (h : c ∈ df) : c.2.length ≤ dfHeight df := by
  induction df with
  | nil => simp at h
  | cons d t ih =>
    rw [dfHeight, List.foldr_cons]
    rcases List.mem_cons.mp h with rfl | h2
    · omega
    · have := ih h2
      rw [dfHeight] at this
      omega

/-! ### Differencing and rolling means -/

lemma diffList_length (xs : List ℚ) : (diffList xs).length = xs.length := by
  cases xs with
  | nil => rfl
  | cons a t => simp [diffList]

lemma mem_zipWith_some {f : α → β → γ} {u : List α} {v : List β} {o : Option γ}
    (h : o ∈ List.zipWith (fun a b => some (f a b)) u v) : o.isSome = true := by
  induction u generalizing v with
  | nil => simp at h
  | cons a u' ih =>
    cases v with
    | nil => simp at h
    | cons b v' =>
      rw [List.zipWith_cons_cons, List.mem_cons] at h
      rcases h with rfl | h
      · rfl
      · exact ih h

lemma countNone_zipWith_some (f : α → β → γ) (u : List α) (v : List β) :
    countNone (List.zipWith (fun a b => some (f a b)) u v) = 0 := by
  induction u generalizing v with
  | nil => rfl
  | cons a u' ih =>
    cases v with
    | nil => rfl
    | cons b v' =>
      rw [List.zipWith_cons_cons, countNone, List.countP_cons]
      have := ih v'
      rw [countNone] at this
      simp [this]

lemma countNone_diffList (xs : List ℚ) (h : xs ≠ []) : countNone (diffList xs) = 1 := by
  cases xs with
  | nil => exact absurd rfl h
  | cons a t =>
    rw [diffList, countNone, List.countP_cons]
    have := countNone_zipWith_some (fun (x y : ℚ) => x - y) t (a :: t)
    rw [countNone] at this
    simp [this]

lemma diffList_take_one (xs : List ℚ) (h : xs ≠ []) : (diffList xs).take 1 = [none] := by
  cases xs with
  | nil => exact absurd rfl h
  | cons a t => simp [diffList]

lemma diffList_drop_isSome (xs : List ℚ) (o : Option ℚ) (h : o ∈ (diffList xs).drop 1) :
    o.isSome = true := by
  cases xs with
  | nil => simp [diffList] at h
  | cons a t =>
    rw [diffList, List.drop_one, List.tail_cons] at h
    exact mem_zipWith_some h

lemma dmAux (t : List ℚ) (a : ℚ) :
    ((List.zipWith (fun x y => some (x - y)) t (a :: t)).zip t).filterMap
        (fun p => p.1.map (fun d => [d, p.2])) =
      (t.zip (a :: t)).map (fun p => [p.1 - p.2, p.1]) := by
  induction t generalizing a with
  | nil => rfl
  | cons b t' ih => simp [List.zipWith_cons_cons, List.filterMap_cons, ih b]

lemma deltaMatrix_cons (a : ℚ) (t : List ℚ) :
    deltaMatrix (a :: t) = (t.zip (a :: t)).map (fun p => [p.1 - p.2, p.1]) := by
  rw [deltaMatrix, diffList]
  rw [List.zip_cons_cons, List.filterMap_cons]
  simp only [Option.map_none]
  exact dmAux t a

lemma deltaMatrix_length (xs : List ℚ) : (deltaMatrix xs).length = xs.length - 1 := by
  cases xs with
  | nil => rfl
  | cons a t => simp [deltaMatrix_cons]

lemma deltaMatrix_ne_nil (xs : List ℚ) (h : 2 ≤ xs.length) : (deltaMatrix xs).isEmpty = false := by
  have hl := deltaMatrix_length xs
  rw [List.isEmpty_eq_false_iff_exists_mem]
  rcases List.exists_mem_of_length_pos (l := deltaMatrix xs) (by omega) with ⟨x, hx⟩
  exact ⟨x, hx⟩

lemma countP_range_lt (m n : ℕ) :
    (List.range n).countP (fun i => decide (i < m)) = min m n := by
  induction n with
  | zero => simp
  | succ k ih =>
    rw [List.range_succ, List.countP_append, ih]
    by_cases h : k < m <;> simp [h] <;> omega

lemma rollingMean_length (w : ℕ) (xs : List ℚ) : (rollingMean w xs).length = xs.length := by
  simp [rollingMean]

lemma countNone_rollingMean (w : ℕ) (xs : List ℚ) (h1 : 1 ≤ w) (h2 : w ≤ xs.length) :
    countNone (rollingMean w xs) = w - 1 := by
  rw [rollingMean, countNone, List.countP_map]
  have hc : ∀ i ∈ List.range xs.length,
      (Option.isNone ∘ fun i =>
        if w = 0 ∨ i + 1 < w then (none : Option ℚ)
        else some (((xs.drop (i + 1 - w)).take w).sum / (w : ℚ))) i =
      (fun i => decide (i < w - 1)) i := by
    intro i _
    by_cases hlt : i + 1 < w
    · simp [Function.comp, hlt]
      omega
    · have hw0 : ¬ (w = 0 ∨ i + 1 < w) := by omega
      simp only [Function.comp_apply, if_neg hw0, Option.isNone_some]
      have hni : ¬ i < w - 1 := by omega
      simp [hni]
  rw [List.countP_congr (fun x hx => by rw [hc x hx])]
  rw [countP_range_lt]
  omega

lemma rollingMean_all_none (w : ℕ) (xs : List ℚ) (h : w = 0 ∨ xs.length < w) :
    ∀ o ∈ rollingMean w xs, o = none := by
  intro o ho
  rw [rollingMean, List.mem_map] at ho
  obtain ⟨i, hi, rfl⟩ := ho
  rw [List.mem_range] at hi
  have : w = 0 ∨ i + 1 < w := by omega
  simp [this]

lemma dropna_rollingMean_length (w : ℕ) (xs : List ℚ) (h1 : 1 ≤ w) (h2 : w ≤ xs.length) :
    (dropna (rollingMean w xs)).length = xs.length - (w - 1) := by
  rw [dropna_length, countNone_rollingMean w xs h1 h2, rollingMean_length]

lemma dropna_rollingMean_ne_nil (w : ℕ) (xs : List ℚ) (h1 : 1 ≤ w) (h2 : w ≤ xs.length) :
    (dropna (rollingMean w xs)).isEmpty = false := by
  have := dropna_rollingMean_length w xs h1 h2
  rw [List.isEmpty_eq_false_iff_exists_mem]
  rcases List.exists_mem_of_length_pos (l := dropna (rollingMean w xs)) (by omega) with ⟨x, hx⟩
  exact ⟨x, hx⟩

lemma rollingMean_take (w : ℕ) (xs : List ℚ) (h2 : w ≤ xs.length) :
    (rollingMean w xs).take (w - 1) = List.replicate (w - 1) none := by
  rw [rollingMean, ← List.map_take, List.take_range]
  have hmin : min (w - 1) xs.length = w - 1 := by omega
  rw [hmin, List.eq_replicate_iff]
  constructor
  · simp
  · intro b hb
    rw [List.mem_map] at hb
    obtain ⟨i, hi, rfl⟩ := hb
    rw [List.mem_range] at hi
    have : w = 0 ∨ i + 1 < w := by omega
    simp [this]

lemma rollingMean_drop_isSome (w : ℕ) (xs : List ℚ) (h1 : 1 ≤ w) (o : Option ℚ)
    (h : o ∈ (rollingMean w xs).drop (w - 1)) : o.isSome = true := by
  rw [List.mem_iff_getElem?] at h
  obtain ⟨j, hget⟩ := h
  rw [List.getElem?_drop, rollingMean, List.getElem?_map] at hget
  by_cases hb : w - 1 + j < xs.length
  · rw [List.getElem?_range hb] at hget
    have hcond : ¬ (w = 0 ∨ w - 1 + j + 1 < w) := by omega
    simp only [Option.map_some', if_neg hcond, Option.some_inj] at hget
    rw [← hget]
    rfl
  · rw [List.getElem?_eq_none (by simpa using by omega)] at hget
    simp at hget

/-! ### Frame characterizations -/

lemma deltaFrame_eq (S : ScorerF) (xs : List ℚ) (ts : List ℕ) :
    deltaFrame S xs ts =
      [("deltaScores", numCol ((S 42).decision (deltaMatrix xs))),
       ("deltaAnomaly", numCol ((S 42).predict (deltaMatrix xs))),
       ("deltaIncidents", ((diffList xs).drop 1).map (Option.map Cell.num))] := rfl

lemma windowFrame_eq (S : ScorerF) (xs : List ℚ) (ts : List ℕ) (val : ℕ) :
    windowFrame S xs ts val =
      [("window" ++ toString val ++ "Scores",
        numCol ((S 42).decision ((dropna (rollingMean val xs)).map (fun v => [v])))),
       ("window" ++ toString val ++ "Anomaly",
        numCol ((S 42).predict ((dropna (rollingMean val xs)).map (fun v => [v])))),
       ("window" ++ toString val ++ "Incidents",
        numCol (dropna (rollingMean val xs)))] := rfl

lemma windowDeltaFrame_eq (S : ScorerF) (xs : List ℚ) (ts : List ℕ) (val : ℕ) :
    windowDeltaFrame S xs ts val =
      [("windowDelta" ++ toString val ++ "Scores",
        numCol ((S 42).decision (windowsDeltaPD xs))),
       ("windowDelta" ++ toString val ++ "Anomaly",
        numCol ((S 42).predict (windowsDeltaPD xs))),
       ("windowDelta" ++ toString val ++ "Incidents",
        ((diffList xs).drop (countNone (diffList xs))).map (Option.map Cell.num))] := rfl

lemma baseFrame_names (S : ScorerF) (xs : List ℚ) (ts : List ℕ) (time : Option Bool) :
    (baseFrame S xs ts time).map (·.1) = baseNames time := by
  rcases time with _ | _ | _ <;> rfl

lemma baseFrame_lengths (S : ScorerF) (xs : List ℚ) (ts : List ℕ) (time : Option Bool)
    (hWf : (S 42).Wf) (hlen : ts.length = xs.length) :
    ∀ c ∈ baseFrame S xs ts time, c.2.length = xs.length := by
  intro c hc
  obtain ⟨hd, hp⟩ := hWf (xs.map (fun v => [v]))
  rw [List.length_map] at hd hp
  rcases time with _ | _ | _ <;>
    simp [baseFrame] at hc <;>
    rcases hc with rfl | rfl | rfl | rfl <;>
    simp [numCol, hd, hp, hlen]

lemma deltaFrame_lengths (S : ScorerF) (xs : List ℚ) (ts : List ℕ) (hWf : (S 42).Wf) :
    ∀ c ∈ deltaFrame S xs ts, c.2.length = xs.length - 1 := by
  intro c hc
  obtain ⟨hd, hp⟩ := hWf (deltaMatrix xs)
  rw [deltaMatrix_length] at hd hp
  rw [deltaFrame_eq] at hc
  simp at hc
  rcases hc with rfl | rfl | rfl <;>
    simp [numCol, hd, hp, diffList_length]

lemma windowFrame_lengths (S : ScorerF) (xs : List ℚ) (ts : List ℕ) (val : ℕ)
    (hWf : (S 42).Wf) :
    ∀ c ∈ windowFrame S xs ts val, c.2.length = (dropna (rollingMean val xs)).length := by
  intro c hc
  obtain ⟨hd, hp⟩ := hWf ((dropna (rollingMean val xs)).map (fun v => [v]))
  rw [List.length_map] at hd hp
  rw [windowFrame_eq] at hc
  simp at hc
  rcases hc with rfl | rfl | rfl <;> simp [numCol, hd, hp]

lemma windowDeltaFrame_lengths (S : ScorerF) (xs : List ℚ) (ts : List ℕ) (val : ℕ)
    (hWf : (S 42).Wf) (h2 : 2 ≤ xs.length) :
    ∀ c ∈ windowDeltaFrame S xs ts val, c.2.length = xs.length - 1 := by
  intro c hc
  obtain ⟨hd, hp⟩ := hWf (windowsDeltaPD xs)
  have hpd : windowsDeltaPD xs = deltaMatrix xs := rfl
  rw [hpd, deltaMatrix_length] at hd hp
  have hcn : countNone (diffList xs) = 1 :=
    countNone_diffList xs (by intro h; rw [h] at h2; simp at h2)
  rw [windowDeltaFrame_eq] at hc
  simp at hc
  rcases hc with rfl | rfl | rfl <;>
    simp [numCol, hd, hp, hpd, hcn, diffList_length]

/-! ### Builder success and failure -/

lemma getBase_ok (S : ScorerF) (xs : List ℚ) (ts : List ℕ) (time : Option Bool)
    (h : 1 ≤ xs.length) (htime : time = none ∨ time = some true) :
    getBase S xs ts time = .ok (baseFrame S xs ts time) := by
  have hne : xs ≠ [] := by
    intro hnil
    rw [hnil] at h
    simp at h
  have hcond : ¬ ((xs.map (fun v => [v])).isEmpty = true) := by simp [hne]
  rcases htime with rfl | rfl <;> rw [getBase, if_neg hcond] <;> rfl

lemma getBase_keyError (S : ScorerF) (xs : List ℚ) (ts : List ℕ) (h : 1 ≤ xs.length) :
    getBase S xs ts (some false) = .error "KeyError: Date" := by
  have hne : xs ≠ [] := by
    intro hnil
    rw [hnil] at h
    simp at h
  have hcond : ¬ ((xs.map (fun v => [v])).isEmpty = true) := by simp [hne]
  rw [getBase, if_neg hcond]
  rfl

lemma getBaseDelta_ok (S : ScorerF) (xs : List ℚ) (ts : List ℕ) (h : 2 ≤ xs.length) :
    getBaseDelta S xs ts = .ok (deltaFrame S xs ts) := by
  have hcond : ¬ ((deltaMatrix xs).isEmpty = true) := by
    rw [deltaMatrix_ne_nil xs h]
    simp
  rw [getBaseDelta, if_neg hcond]
  rfl

lemma getWindows_cons_step (S : ScorerF) (xs : List ℚ) (ts : List ℕ) (val : ℕ)
    (rest : List ℕ) (acc : List (List ℚ)) (wr : DF)
    (hne : ¬ ((dropna (rollingMean val xs)).isEmpty = true)) :
    getWindows S xs ts (val :: rest) acc wr =
      getWindows S xs ts rest (acc ++ [dropna (rollingMean val xs)])
        (concatDF [wr, windowFrame S xs ts val]) := by
  rw [getWindows, if_neg hne]
  rfl

lemma getWindowsDelta_cons_step (S : ScorerF) (xs : List ℚ) (ts : List ℕ) (val : ℕ)
    (restW : List ℕ) (r : List ℚ) (restC : List (List ℚ)) (wr : DF)
    (hne : ¬ ((windowsDeltaPD xs).isEmpty = true)) :
    getWindowsDelta S xs ts (val :: restW) (r :: restC) wr =
      getWindowsDelta S xs ts restW restC
        (concatDF [wr, windowDeltaFrame S xs ts val]) := by
  rw [getWindowsDelta, if_neg hne]
  rfl

lemma getWindows_ok (S : ScorerF) (xs : List ℚ) (ts : List ℕ) (hWf : (S 42).Wf) :
    ∀ (ws : List ℕ) (acc : List (List ℚ)) (wr : DF),
    (∀ w ∈ ws, 1 ≤ w ∧ w ≤ xs.length) →
    (∀ c ∈ wr, c.2.length ≤ xs.length) →
    ∃ rc wres, getWindows S xs ts ws acc wr = .ok (rc, wres) ∧
      rc.length = acc.length + ws.length ∧
      wres.map (·.1) = wr.map (·.1) ++ concatMap windowNames ws ∧
      (∀ c ∈ wres, c.2.length ≤ xs.length) := by
  intro ws
  induction ws with
  | nil =>
    intro acc wr _ hwr
    exact ⟨acc, wr, rfl, by simp, by simp [concatMap], hwr⟩
  | cons w rest ih =>
    intro acc wr hws hwr
    obtain ⟨hw1, hwn⟩ := hws w (by simp)
    have hne := dropna_rollingMean_ne_nil w xs hw1 hwn
    rw [getWindows, if_neg (by rw [hne]; simp)]
    have hframe_le : ∀ c ∈ windowFrame S xs ts w, c.2.length ≤ xs.length := by
      intro c hc
      rw [windowFrame_lengths S xs ts w hWf c hc]
      exact dropna_length_le _ |>.trans (by rw [rollingMean_length])
    have hnext : ∀ c ∈ concatDF [wr, windowFrame S xs ts w], c.2.length ≤ xs.length := by
      intro c hc
      rw [mem_concatDF] at hc
      obtain ⟨df, hdf, c₀, hc₀, rfl⟩ := hc
      rw [padCol_length]
      have hM : ((([wr, windowFrame S xs ts w] : List DF).map dfHeight).foldr max 0) ≤ xs.length := by
        simp only [List.map_cons, List.map_nil, List.foldr_cons, List.foldr_nil]
        have h1 := dfHeight_le wr xs.length hwr
        have h2 := dfHeight_le (windowFrame S xs ts w) xs.length hframe_le
        omega
      have hc0 : c₀.2.length ≤ xs.length := by
        simp at hdf
        rcases hdf with rfl | rfl
        · exact hwr c₀ hc₀
        · exact hframe_le c₀ hc₀
      omega
    obtain ⟨rc, wres, heq, hrc, hnames, hlens⟩ :=
      ih (acc ++ [dropna (rollingMean w xs)]) (concatDF [wr, windowFrame S xs ts w])
        (fun v hv => hws v (by simp [hv])) hnext
    refine ⟨rc, wres, heq, by simp at hrc ⊢; omega, ?_, hlens⟩
    rw [hnames, concatDF_names]
    simp only [concatMap, List.append_nil]
    rw [windowFrame_eq]
    simp [windowNames, concatMap, List.append_assoc]

lemma getWindows_err (S : ScorerF) (xs : List ℚ) (ts : List ℕ) :
    ∀ (ws : List ℕ) (acc : List (List ℚ)) (wr : DF),
    (∃ w ∈ ws, w = 0 ∨ xs.length < w) →
    getWindows S xs ts ws acc wr = .error "ValueError: zero samples" := by
  intro ws
  induction ws with
  | nil => intro acc wr h; simp at h
  | cons w rest ih =>
    intro acc wr h
    by_cases hbad : w = 0 ∨ xs.length < w
    · have hnil : dropna (rollingMean w xs) = [] :=
        dropna_eq_nil _ (rollingMean_all_none w xs hbad)
      rw [getWindows, if_pos (by rw [hnil]; rfl)]
    · have hgood : 1 ≤ w ∧ w ≤ xs.length := by omega
      have hne := dropna_rollingMean_ne_nil w xs hgood.1 hgood.2
      rw [getWindows, if_neg (by rw [hne]; simp)]
      apply ih
      rcases h with ⟨v, hv, hvbad⟩
      rcases List.mem_cons.mp hv with rfl | hv2
      · exact absurd hvbad hbad
      · exact ⟨v, hv2, hvbad⟩

lemma getWindowsDelta_ok (S : ScorerF) (xs : List ℚ) (ts : List ℕ)
    (hWf : (S 42).Wf) (h2 : 2 ≤ xs.length) :
    ∀ (ws : List ℕ) (rcols : List (List ℚ)) (wr : DF),
    rcols.length = ws.length →
    (∀ c ∈ wr, c.2.length ≤ xs.length) →
    ∃ wres, getWindowsDelta S xs ts ws rcols wr = .ok wres ∧
      wres.map (·.1) = wr.map (·.1) ++ concatMap windowDeltaNames ws ∧
      (∀ c ∈ wres, c.2.length ≤ xs.length) := by
  intro ws
  induction ws with
  | nil =>
    intro rcols wr _ hwr
    exact ⟨wr, rfl, by simp [concatMap], hwr⟩
  | cons w rest ih =>
    intro rcols wr hrc hwr
    cases rcols with
    | nil => simp at hrc
    | cons r rcols' =>
      have hpd : (windowsDeltaPD xs).isEmpty = false := deltaMatrix_ne_nil xs h2
      rw [getWindowsDelta, if_neg (by rw [hpd]; simp)]
      have hframe_le : ∀ c ∈ windowDeltaFrame S xs ts w, c.2.length ≤ xs.length := by
        intro c hc
        rw [windowDeltaFrame_lengths S xs ts w hWf h2 c hc]
        omega
      have hnext : ∀ c ∈ concatDF [wr, windowDeltaFrame S xs ts w], c.2.length ≤ xs.length := by
        intro c hc
        rw [mem_concatDF] at hc
        obtain ⟨df, hdf, c₀, hc₀, rfl⟩ := hc
        rw [padCol_length]
        have hM : ((([wr, windowDeltaFrame S xs ts w] : List DF).map dfHeight).foldr max 0) ≤ xs.length := by
          simp only [List.map_cons, List.map_nil, List.foldr_cons, List.foldr_nil]
          have hh1 := dfHeight_le wr xs.length hwr
          have hh2 := dfHeight_le (windowDeltaFrame S xs ts w) xs.length hframe_le
          omega
        have hc0 : c₀.2.length ≤ xs.length := by
          simp at hdf
          rcases hdf with rfl | rfl
          · exact hwr c₀ hc₀
          · exact hframe_le c₀ hc₀
        omega
      obtain ⟨wres, heq, hnames, hlens⟩ :=
        ih rcols' (concatDF [wr, windowDeltaFrame S xs ts w]) (by simpa using hrc) hnext
      refine ⟨wres, heq, ?_, hlens⟩
      rw [hnames, concatDF_names]
      simp only [concatMap, List.append_nil]
      rw [windowDeltaFrame_eq]
      simp [windowDeltaNames, concatMap, List.append_assoc]

lemma deltaFrame_names (S : ScorerF) (xs : List ℚ) (ts : List ℕ) :
    (deltaFrame S xs ts).map (·.1) = deltaNames := by
  rw [deltaFrame_eq]
  rfl

/-! ### The orchestrator on a valid run -/

lemma getIF_ok_spec (S : ScorerF) (inp : Inputs) (hWf : (S 42).Wf) (hv : ValidRun inp)
    (htime : inp.time = none ∨ inp.time = some true) :
    ∃ df, getIF S inp = .ok (PIndex.range inp.dataCol.length, df) ∧
      df.map (·.1) = resultNames inp ∧
      (∀ c ∈ df, c.2.length = inp.dataCol.length) ∧
      (inp.time = none →
        df[3]? = some ("Date", inp.timeCol.map (fun t => some (Cell.day t)))) := by
  obtain ⟨h1, h2, h3, hn2, hlen, hws⟩ := hv
  have hbase := getBase_ok S inp.dataCol inp.timeCol inp.time (by omega) htime
  obtain ⟨rc, wres, heqW, hrcLen, hnamesW, hlensW⟩ :=
    getWindows_ok S inp.dataCol inp.timeCol hWf inp.windowList [] [] hws (by simp)
  have hdelta := getBaseDelta_ok S inp.dataCol inp.timeCol hn2
  obtain ⟨wdres, heqWD, hnamesWD, hlensWD⟩ :=
    getWindowsDelta_ok S inp.dataCol inp.timeCol hWf hn2 inp.windowList rc []
      (by simpa using hrcLen) (by simp)
  have hBlen := baseFrame_lengths S inp.dataCol inp.timeCol inp.time hWf hlen
  have hfirstMem : ("baseScores", numCol ((S 42).decision (inp.dataCol.map (fun v => [v])))) ∈
      baseFrame S inp.dataCol inp.timeCol inp.time := by
    rw [baseFrame.eq_def]
    exact List.mem_append_left _ (by simp)
  have hfirstLen : (numCol ((S 42).decision (inp.dataCol.map (fun v => [v])))).length =
      inp.dataCol.length := by
    obtain ⟨hd, _⟩ := hWf (inp.dataCol.map (fun v => [v]))
    rw [List.length_map] at hd
    simp [numCol, hd]
  have hHB : dfHeight (baseFrame S inp.dataCol inp.timeCol inp.time) = inp.dataCol.length := by
    apply le_antisymm
    · exact dfHeight_le _ _ (fun c hc => le_of_eq (hBlen c hc))
    · have := le_dfHeight _ _ hfirstMem
      rw [hfirstLen] at this
      exact this
  have hDlen := deltaFrame_lengths S inp.dataCol inp.timeCol hWf
  have hHD : dfHeight (deltaFrame S inp.dataCol inp.timeCol) ≤ inp.dataCol.length :=
    dfHeight_le _ _ (fun c hc => by rw [hDlen c hc]; omega)
  have hHW : dfHeight wres ≤ inp.dataCol.length := dfHeight_le _ _ hlensW
  have hHWD : dfHeight wdres ≤ inp.dataCol.length := dfHeight_le _ _ hlensWD
  have hM : ((([baseFrame S inp.dataCol inp.timeCol inp.time,
      deltaFrame S inp.dataCol inp.timeCol, wres, wdres] : List DF).map dfHeight).foldr max 0) =
      inp.dataCol.length := by
    simp only [List.map_cons, List.map_nil, List.foldr_cons, List.foldr_nil]
    omega
  have hCClen : ∀ c ∈ concatDF [baseFrame S inp.dataCol inp.timeCol inp.time,
      deltaFrame S inp.dataCol inp.timeCol, wres, wdres], c.2.length = inp.dataCol.length := by
    intro c hc
    rw [mem_concatDF] at hc
    obtain ⟨df, hdf, c₀, hc₀, rfl⟩ := hc
    rw [padCol_length, hM]
    have hc0 : c₀.2.length ≤ inp.dataCol.length := by
      simp at hdf
      rcases hdf with rfl | rfl | rfl | rfl
      · exact le_of_eq (hBlen c₀ hc₀)
      · rw [hDlen c₀ hc₀]; omega
      · exact hlensW c₀ hc₀
      · exact hlensWD c₀ hc₀
    omega
  have hHCC : dfHeight (concatDF [baseFrame S inp.dataCol inp.timeCol inp.time,
      deltaFrame S inp.dataCol inp.timeCol, wres, wdres]) = inp.dataCol.length := by
    apply le_antisymm
    · exact dfHeight_le _ _ (fun c hc => le_of_eq (hCClen c hc))
    · have hmem : ("baseScores", padCol (inp.dataCol.length)
          (numCol ((S 42).decision (inp.dataCol.map (fun v => [v]))))) ∈
          concatDF [baseFrame S inp.dataCol inp.timeCol inp.time,
            deltaFrame S inp.dataCol inp.timeCol, wres, wdres] := by
        rw [mem_concatDF]
        exact ⟨_, by simp, _, hfirstMem, by rw [hM]⟩
      have := le_dfHeight _ _ hmem
      rw [padCol_length, hfirstLen] at this
      omega
  refine ⟨realignAll (concatDF [baseFrame S inp.dataCol inp.timeCol inp.time,
      deltaFrame S inp.dataCol inp.timeCol, wres, wdres]), ?_, ?_, ?_, ?_⟩
  · rw [getIF]
    rw [if_neg (by rw [h1]; simp), if_neg (by rw [h2]; simp), if_neg (by rw [h3]; simp)]
    rw [hbase, heqW, hdelta]
    simp only [heqWD, hHCC]
  · rw [realignAll_names, concatDF_names]
    simp only [concatMap, List.append_nil]
    rw [baseFrame_names, deltaFrame_names]
    rw [hnamesW, hnamesWD]
    simp [resultNames, concatMap]
  · intro c hc
    rw [realignAll, List.mem_map] at hc
    obtain ⟨c₀, hc₀, rfl⟩ := hc
    rw [realignCol_length]
    exact hCClen c₀ hc₀
  · intro htime
    rw [realignAll, List.getElem?_map]
    have hCC3 : (concatDF [baseFrame S inp.dataCol inp.timeCol inp.time,
        deltaFrame S inp.dataCol inp.timeCol, wres, wdres])[3]? =
        some ("Date", padCol (inp.dataCol.length)
          (inp.timeCol.map (fun t => some (Cell.day t)))) := by
      rw [concatDF, hM]
      simp only [concatMap]
      rw [htime]
      have hfour : ((baseFrame S inp.dataCol inp.timeCol none).map
          (fun c => (c.1, padCol (inp.dataCol.length) c.2))).length = 4 := by
        simp [baseFrame]
      rw [List.getElem?_append]
      rw [if_pos (by rw [hfour]; omega)]
      rfl
    rw [hCC3]
    have hdl : (inp.timeCol.map (fun t => some (Cell.day t))).length = inp.dataCol.length := by
      simp [hlen]
    rw [← hdl, padCol_self]
    rw [Option.map_some']
    have hra : realignCol (inp.timeCol.map (fun t => some (Cell.day t))) =
        inp.timeCol.map (fun t => some (Cell.day t)) :=
      realignCol_of_countNone_zero _ (countNone_map_some _ _)
    rw [hra]

lemma countNone_map_some' (l : List α) : countNone (l.map some) = 0 := by
  simp [countNone, List.countP_map, Function.comp]

lemma realignCol_trailing (vals : List Cell) (k : ℕ) :
    realignCol (vals.map some ++ List.replicate k none) =
      List.replicate k none ++ vals.map some := by
  have hcn : countNone (vals.map some ++ List.replicate k none) = k := by
    rw [countNone_append, countNone_map_some', countNone_replicate_none]
    omega
  rw [realignCol, hcn, shiftDown, ← List.append_assoc]
  rw [List.take_left' (by simp [Nat.add_comm])]

/-! ### Claim theorems -/

/-- C1: for a view with warmup `k` over a series of length `n`, the merged
table's realigned column has its first `k` positions undefined and position
`k + i` holds row `i` of the view's scored output in original order; the
realignment (count the undefined entries, drop them, shift down by that
count) is applied to each column separately, so one view's alignment depends
only on that view's own column, never on another view's warmup. -/
theorem c1_alignment (vals : List Cell) (k : ℕ) (df₁ df₂ : DF) (j : ℕ)
    (h : df₁[j]? = df₂[j]?) :
    realignCol (vals.map some ++ List.replicate k none) =
      List.replicate k none ++ vals.map some ∧
    (∀ i : ℕ, i < k →
      (realignCol (vals.map some ++ List.replicate k none))[i]? = some none) ∧
    (∀ i : ℕ,
      (realignCol (vals.map some ++ List.replicate k none))[k + i]? = (vals.map some)[i]?) ∧
    (realignAll df₁)[j]? = (realignAll df₂)[j]? := by
  refine ⟨realignCol_trailing vals k, ?_, ?_, ?_⟩
  · intro i hik
    rw [realignCol_trailing, List.getElem?_append,
      if_pos (by rw [List.length_replicate]; omega)]
    rw [List.getElem?_replicate, if_pos hik]
  · intro i
    rw [realignCol_trailing, List.getElem?_append]
    rw [if_neg (by rw [List.length_replicate]; omega)]
    rw [List.length_replicate]
    congr 1
    omega
  · rw [realignAll, realignAll, List.getElem?_map, List.getElem?_map, h]

/-- C1 witness: the alignment theorem at a concrete one-row view with
warmup 1 and two concretely equal one-column frames. -/
theorem c1_alignment_witness :
    realignCol ([Cell.num 5].map some ++ List.replicate 1 none) =
      List.replicate 1 none ++ [Cell.num 5].map some ∧
    (∀ i : ℕ, i < 1 →
      (realignCol ([Cell.num 5].map some ++ List.replicate 1 none))[i]? = some none) ∧
    (∀ i : ℕ,
      (realignCol ([Cell.num 5].map some ++ List.replicate 1 none))[1 + i]? =
        ([Cell.num 5].map some)[i]?) ∧
    (realignAll [("a", [none, some (Cell.num 2)])])[0]? =
      (realignAll [("a", [none, some (Cell.num 2)])])[0]? :=
  c1_alignment [Cell.num 5] 1 [("a", [none, some (Cell.num 2)])]
    [("a", [none, some (Cell.num 2)])] 0 rfl

/-- C2: on every valid run the orchestrator returns a table of exactly `n`
rows whose column groups are exactly the Raw group, the Delta group, one
Window group per requested window and one WindowDelta group per requested
window, in that order — in particular the Delta (`baseDelta`) view is in
the merge — and with an empty window list exactly the Raw and Delta groups
appear. -/
theorem c2_result_shape (S : ScorerF) (inp : Inputs) (hWf : (S 42).Wf) (hv : ValidRun inp)
    (htime : inp.time = none ∨ inp.time = some true) :
    ∃ df, getIF S inp = .ok (PIndex.range inp.dataCol.length, df) ∧
      df.map (·.1) = baseNames inp.time ++ deltaNames ++
        concatMap windowNames inp.windowList ++ concatMap windowDeltaNames inp.windowList ∧
      (∀ c ∈ df, c.2.length = inp.dataCol.length) ∧
      (inp.windowList = [] → df.map (·.1) = baseNames inp.time ++ deltaNames) := by
  obtain ⟨df, heq, hnames, hlens, _⟩ := getIF_ok_spec S inp hWf hv htime
  refine ⟨df, heq, by rw [hnames]; rfl, hlens, ?_⟩
  intro h0
  rw [hnames, resultNames, h0]
  simp [concatMap]

/-- C2 witness: the shape theorem at a concrete three-point series with one
requested window. -/
theorem c2_result_shape_witness :
    ∃ df, getIF constScorerF ⟨[1, 2, 10], [7, 8, 9], [2], true, true, true, none⟩ =
        .ok (PIndex.range ([1, 2, 10] : List ℚ).length, df) ∧
      df.map (·.1) = baseNames none ++ deltaNames ++
        concatMap windowNames [2] ++ concatMap windowDeltaNames [2] ∧
      (∀ c ∈ df, c.2.length = ([1, 2, 10] : List ℚ).length) ∧
      (([2] : List ℕ) = [] → df.map (·.1) = baseNames none ++ deltaNames) :=
  c2_result_shape constScorerF ⟨[1, 2, 10], [7, 8, 9], [2], true, true, true, none⟩
    constScorer_wf (by decide) (Or.inl rfl)

/-- C3: the Raw matrix keeps all `n` rows (warmup 0); the first difference
has exactly one undefined entry, at position 0, so the Delta and WindowDelta
views drop exactly the single leading row (warmup 1); the `w`-long rolling
mean is undefined exactly at the `w - 1` leading positions, so the Window(w)
view drops exactly those rows (warmup `w - 1`). -/
theorem c3_warmups (xs : List ℚ) (w : ℕ) (hx : 1 ≤ xs.length) (h1 : 1 ≤ w)
    (hw : w ≤ xs.length) :
    (xs.map (fun v => [v])).length = xs.length ∧
    countNone (diffList xs) = 1 ∧
    countNone (rollingMean w xs) = w - 1 ∧
    (diffList xs).take 1 = [none] ∧
    (∀ o ∈ (diffList xs).drop 1, o.isSome = true) ∧
    (rollingMean w xs).take (w - 1) = List.replicate (w - 1) none ∧
    (∀ o ∈ (rollingMean w xs).drop (w - 1), o.isSome = true) ∧
    (deltaMatrix xs).length = xs.length - 1 ∧
    (dropna (rollingMean w xs)).length = xs.length - (w - 1) := by
  have hne : xs ≠ [] := by
    intro h
    rw [h] at hx
    simp at hx
  exact ⟨by simp, countNone_diffList xs hne, countNone_rollingMean w xs h1 hw,
    diffList_take_one xs hne, fun o ho => diffList_drop_isSome xs o ho,
    rollingMean_take w xs hw, fun o ho => rollingMean_drop_isSome w xs h1 o ho,
    deltaMatrix_length xs, dropna_rollingMean_length w xs h1 hw⟩

/-- C3 witness: the warmup counts at a concrete series of length 3 with
window 2. -/
theorem c3_warmups_witness :
    countNone (diffList [1, 2, 4]) = 1 ∧
    countNone (rollingMean 2 [1, 2, 4]) = 1 ∧
    (deltaMatrix [1, 2, 4]).length = 2 ∧
    (dropna (rollingMean 2 [1, 2, 4])).length = 2 := by
  obtain ⟨_, hc1, hc2, _, _, _, _, hc3, hc4⟩ :=
    c3_warmups [1, 2, 4] 2 (by decide) (by decide) (by decide)
  exact ⟨hc1, hc2, hc3, hc4⟩

/-- C4: the WindowDelta(w) feature matrix is the Delta feature matrix (both
are the two-column [difference, raw value] matrix with warmup 1), the window
size changes only the column names of the WindowDelta frame, and the
WindowDelta frame's score/label/delta columns coincide with the Delta
frame's. -/
theorem c4_windowDelta_is_delta (S : ScorerF) (xs : List ℚ) (ts : List ℕ) (v v' : ℕ)
    (h2 : 2 ≤ xs.length) :
    windowsDeltaPD xs = deltaMatrix xs ∧
    countNone (diffList xs) = 1 ∧
    (windowDeltaFrame S xs ts v).map (·.1) = windowDeltaNames v ∧
    (windowDeltaFrame S xs ts v).map (·.2) = (windowDeltaFrame S xs ts v').map (·.2) ∧
    ∃ df, getBaseDelta S xs ts = .ok df ∧
      df.map (·.2) = (windowDeltaFrame S xs ts v).map (·.2) := by
  have hne : xs ≠ [] := by
    intro h
    rw [h] at h2
    simp at h2
  have hcn : countNone (diffList xs) = 1 := countNone_diffList xs hne
  refine ⟨rfl, hcn, by rw [windowDeltaFrame_eq]; rfl,
    by rw [windowDeltaFrame_eq, windowDeltaFrame_eq]; rfl, deltaFrame S xs ts,
    getBaseDelta_ok S xs ts h2, ?_⟩
  rw [deltaFrame_eq, windowDeltaFrame_eq]
  simp only [List.map_cons, List.map_nil]
  rw [hcn]
  rfl

/-- C4 witness: the equivalence at a concrete series and two different
window sizes. -/
theorem c4_windowDelta_is_delta_witness :
    windowsDeltaPD [1, 2, 10] = deltaMatrix [1, 2, 10] ∧
    countNone (diffList [1, 2, 10]) = 1 ∧
    (windowDeltaFrame constScorerF [1, 2, 10] [7, 8, 9] 2).map (·.1) = windowDeltaNames 2 ∧
    (windowDeltaFrame constScorerF [1, 2, 10] [7, 8, 9] 2).map (·.2) =
      (windowDeltaFrame constScorerF [1, 2, 10] [7, 8, 9] 3).map (·.2) ∧
    ∃ df, getBaseDelta constScorerF [1, 2, 10] [7, 8, 9] = .ok df ∧
      df.map (·.2) = (windowDeltaFrame constScorerF [1, 2, 10] [7, 8, 9] 2).map (·.2) :=
  c4_windowDelta_is_delta constScorerF [1, 2, 10] [7, 8, 9] 2 3 (by decide)

/-- C5 counterexample: with series `[1, 5]` (length 2) and requested window
2 — so `len(series) ≤ w` holds — the claim demands a failure, but the run
succeeds: the rolling mean has exactly one defined row, which the scorer
accepts, and a full table is returned. -/
theorem c5_counterexample :
    (getIF constScorerF ⟨[1, 5], [10, 11], [2], true, true, true, none⟩).isOk = true := rfl

/-- C5 amended: the pipeline fails (and returns no table) when the series is
shorter than 2 or strictly shorter than some requested window; the failure
is the scorer rejecting an empty feature matrix, not a dedicated
length error naming the window. At `len(series) = w` the run succeeds (see
the counterexample). -/
theorem c5_amended_insufficient_length (S : ScorerF) (inp : Inputs) (hWf : (S 42).Wf)
    (hval : validateIF inp = true)
    (hbad : inp.dataCol.length < 2 ∨ ∃ w ∈ inp.windowList, 1 ≤ w ∧ inp.dataCol.length < w) :
    ∃ e, getIF S inp = .error e := by
  rw [validateIF, Bool.and_eq_true, Bool.and_eq_true] at hval
  obtain ⟨⟨h1, h2⟩, h3⟩ := hval
  rw [getIF]
  rw [if_neg (by rw [h1]; simp), if_neg (by rw [h2]; simp), if_neg (by rw [h3]; simp)]
  by_cases hW : ∃ w ∈ inp.windowList, w = 0 ∨ inp.dataCol.length < w
  · have herr := getWindows_err S inp.dataCol inp.timeCol inp.windowList [] [] hW
    cases hB : getBase S inp.dataCol inp.timeCol inp.time with
    | error e => exact ⟨e, rfl⟩
    | ok baseDF =>
      refine ⟨"ValueError: zero samples", ?_⟩
      simp only [hB, herr]
  · push_neg at hW
    have hn : inp.dataCol.length < 2 := by
      rcases hbad with hn | ⟨w, hwmem, hw1, hwlen⟩
      · exact hn
      · have := hW w hwmem
        omega
    by_cases hn0 : inp.dataCol.length = 0
    · have hxs : inp.dataCol = [] := List.length_eq_zero.mp hn0
      refine ⟨"ValueError: zero samples", ?_⟩
      rw [getBase, if_pos (by rw [hxs]; rfl)]
    · have hn1 : 1 ≤ inp.dataCol.length := by omega
      by_cases htf : inp.time = some false
      · have hB := getBase_keyError S inp.dataCol inp.timeCol hn1
        refine ⟨"KeyError: Date", ?_⟩
        rw [htf]
        simp only [hB]
      · have htime : inp.time = none ∨ inp.time = some true := by
          rcases hts : inp.time with _ | b
          · exact Or.inl rfl
          · cases b
            · exact absurd hts htf
            · exact Or.inr rfl
        have hB := getBase_ok S inp.dataCol inp.timeCol inp.time hn1 htime
        obtain ⟨rc, wres, heqW, _, _, _⟩ :=
          getWindows_ok S inp.dataCol inp.timeCol hWf inp.windowList [] []
            (fun w hw => by have := hW w hw; omega) (by simp)
        have hD : getBaseDelta S inp.dataCol inp.timeCol = .error "ValueError: zero samples" := by
          rw [getBaseDelta, if_pos]
          rw [List.isEmpty_iff, ← List.length_eq_zero, deltaMatrix_length]
          omega
        refine ⟨"ValueError: zero samples", ?_⟩
        simp only [hB, heqW, hD]

/-- C5 amended witness: a one-point series fails. -/
theorem c5_amended_witness :
    ∃ e, getIF constScorerF ⟨[1], [2], [], true, true, true, none⟩ = .error e :=
  c5_amended_insufficient_length constScorerF ⟨[1], [2], [], true, true, true, none⟩
    constScorer_wf rfl (Or.inl (by decide))

/-- C6 counterexample: on a valid two-point run the returned table's row
index is the synthetic integer range `0..1`, which is not the caller's
timestamp index `[100, 200]`. -/
theorem c6_counterexample :
    Except.map Prod.fst (getIF constScorerF ⟨[1, 2], [100, 200], [], true, true, true, none⟩) =
      Except.ok (PIndex.range 2) ∧
    PIndex.range 2 ≠ PIndex.datetime [100, 200] := ⟨rfl, by decide⟩

/-- C6 amended: the result table is indexed by the synthetic integer range
`0..n-1`; the caller-supplied timestamps appear only as the `Date` column of
the Raw group (truncated to dates under the default `time = None`), never as
the row index. -/
theorem c6_amended_range_index (S : ScorerF) (inp : Inputs) (hWf : (S 42).Wf)
    (hv : ValidRun inp) (ht : inp.time = none) :
    ∃ df, getIF S inp = .ok (PIndex.range inp.dataCol.length, df) ∧
      df[3]? = some ("Date", inp.timeCol.map (fun t => some (Cell.day t))) := by
  obtain ⟨df, heq, _, _, hdate⟩ := getIF_ok_spec S inp hWf hv (Or.inl ht)
  exact ⟨df, heq, hdate ht⟩

/-- C6 amended witness: the range index and Date column at a concrete run. -/
theorem c6_amended_witness :
    ∃ df, getIF constScorerF ⟨[1, 2], [100, 200], [], true, true, true, none⟩ =
        .ok (PIndex.range ([1, 2] : List ℚ).length, df) ∧
      df[3]? = some ("Date", ([100, 200] : List ℕ).map (fun t => some (Cell.day t))) :=
  c6_amended_range_index constScorerF ⟨[1, 2], [100, 200], [], true, true, true, none⟩
    constScorer_wf (by decide) rfl

/-- C7 counterexample: the input with `windowList = [0]` violates the
claimed "sequence of positive integers" precondition, yet the three type
asserts all pass (`validateIF = true`), and the run then fails much later
inside `getWindows` with the scorer's ValueError — not with an immediate
validation error. -/
theorem c7_counterexample :
    validateIF ⟨[1, 2, 3], [4, 5, 6], [0], true, true, true, none⟩ = true ∧
    (([0] : List ℕ).all (fun w => decide (1 ≤ w))) = false ∧
    getIF constScorerF ⟨[1, 2, 3], [4, 5, 6], [0], true, true, true, none⟩ =
      .error "ValueError: zero samples" := ⟨rfl, rfl, rfl⟩

/-- C7 amended: before any other work `getIF` asserts only the runtime types
of its three data arguments (pandas Series, DatetimeIndex, list), failing
with the corresponding assertion error; the validation reads nothing but the
three type tags — not the values, lengths, or window positivity — so
malformed contents pass it and surface only later as other errors. -/
theorem c7_amended_type_asserts_only (S : ScorerF) (inp : Inputs)
    (h : validateIF inp = false) :
    (getIF S inp = .error "AssertionError: dataCol should be a pandas series" ∨
     getIF S inp = .error "AssertionError: timeCol should be a pandas DatetimeIndex" ∨
     getIF S inp = .error "AssertionError: windowList should be a list") ∧
    (∀ (xs : List ℚ) (ts : List ℕ) (ws : List ℕ) (tf : Option Bool),
      validateIF ⟨xs, ts, ws, inp.dataIsSeries, inp.timeIsDatetimeIndex,
        inp.windowIsList, tf⟩ = validateIF inp) := by
  constructor
  · rw [validateIF] at h
    rw [getIF]
    cases hd : inp.dataIsSeries with
    | false => exact Or.inl (by rw [if_pos rfl])
    | true =>
      rw [if_neg (by simp)]
      cases ht : inp.timeIsDatetimeIndex with
      | false => exact Or.inr (Or.inl (by rw [if_pos rfl]))
      | true =>
        rw [if_neg (by simp)]
        cases hw : inp.windowIsList with
        | false => exact Or.inr (Or.inr (by rw [if_pos rfl]))
        | true =>
          exfalso
          rw [hd, ht, hw] at h
          simp at h
  · intro xs ts ws tf
    rfl

/-- C7 amended witness: a non-Series first argument trips the first assert. -/
theorem c7_amended_witness :
    (getIF constScorerF ⟨[1], [2], [], false, true, true, none⟩ =
        .error "AssertionError: dataCol should be a pandas series" ∨
     getIF constScorerF ⟨[1], [2], [], false, true, true, none⟩ =
        .error "AssertionError: timeCol should be a pandas DatetimeIndex" ∨
     getIF constScorerF ⟨[1], [2], [], false, true, true, none⟩ =
        .error "AssertionError: windowList should be a list") ∧
    (∀ (xs : List ℚ) (ts : List ℕ) (ws : List ℕ) (tf : Option Bool),
      validateIF ⟨xs, ts, ws, false, true, true, tf⟩ =
        validateIF ⟨[1], [2], [], false, true, true, none⟩) :=
  c7_amended_type_asserts_only constScorerF ⟨[1], [2], [], false, true, true, none⟩ rfl

/-! ### Determinism congruence -/

lemma baseFrame_congr {S₁ S₂ : ScorerF} (h : S₁ 42 = S₂ 42) (xs : List ℚ) (ts : List ℕ)
    (time : Option Bool) : baseFrame S₁ xs ts time = baseFrame S₂ xs ts time := by
  rw [baseFrame.eq_def, baseFrame.eq_def, h]

lemma getBase_congr {S₁ S₂ : ScorerF} (h : S₁ 42 = S₂ 42) (xs : List ℚ) (ts : List ℕ)
    (time : Option Bool) : getBase S₁ xs ts time = getBase S₂ xs ts time := by
  rw [getBase, getBase, baseFrame_congr h]

lemma deltaFrame_congr {S₁ S₂ : ScorerF} (h : S₁ 42 = S₂ 42) (xs : List ℚ) (ts : List ℕ) :
    deltaFrame S₁ xs ts = deltaFrame S₂ xs ts := by
  rw [deltaFrame_eq, deltaFrame_eq, h]

lemma deltaFramePre_congr {S₁ S₂ : ScorerF} (h : S₁ 42 = S₂ 42) (xs : List ℚ) (ts : List ℕ) :
    deltaFramePre S₁ xs ts = deltaFramePre S₂ xs ts := by
  rw [deltaFramePre, deltaFramePre, h]

lemma getBaseDelta_congr {S₁ S₂ : ScorerF} (h : S₁ 42 = S₂ 42) (xs : List ℚ) (ts : List ℕ) :
    getBaseDelta S₁ xs ts = getBaseDelta S₂ xs ts := by
  rw [getBaseDelta, getBaseDelta, deltaFramePre_congr h, deltaFrame_congr h]

lemma windowFrame_congr {S₁ S₂ : ScorerF} (h : S₁ 42 = S₂ 42) (xs : List ℚ) (ts : List ℕ)
    (val : ℕ) : windowFrame S₁ xs ts val = windowFrame S₂ xs ts val := by
  rw [windowFrame_eq, windowFrame_eq, h]

lemma windowFramePre_congr {S₁ S₂ : ScorerF} (h : S₁ 42 = S₂ 42) (xs : List ℚ) (ts : List ℕ)
    (val : ℕ) : windowFramePre S₁ xs ts val = windowFramePre S₂ xs ts val := by
  rw [windowFramePre, windowFramePre, h]

lemma windowDeltaFrame_congr {S₁ S₂ : ScorerF} (h : S₁ 42 = S₂ 42) (xs : List ℚ)
    (ts : List ℕ) (val : ℕ) : windowDeltaFrame S₁ xs ts val = windowDeltaFrame S₂ xs ts val := by
  rw [windowDeltaFrame_eq, windowDeltaFrame_eq, h]

lemma windowDeltaFramePre_congr {S₁ S₂ : ScorerF} (h : S₁ 42 = S₂ 42) (xs : List ℚ)
    (ts : List ℕ) : windowDeltaFramePre S₁ xs ts = windowDeltaFramePre S₂ xs ts := by
  rw [windowDeltaFramePre, windowDeltaFramePre, h]

lemma getWindows_congr {S₁ S₂ : ScorerF} (h : S₁ 42 = S₂ 42) (xs : List ℚ) (ts : List ℕ) :
    ∀ (ws : List ℕ) (acc : List (List ℚ)) (wr : DF),
    getWindows S₁ xs ts ws acc wr = getWindows S₂ xs ts ws acc wr := by
  intro ws
  induction ws with
  | nil => intro acc wr; rfl
  | cons w rest ih =>
    intro acc wr
    rw [getWindows, getWindows, windowFramePre_congr h, windowFrame_congr h, ih]

lemma getWindowsDelta_congr {S₁ S₂ : ScorerF} (h : S₁ 42 = S₂ 42) (xs : List ℚ)
    (ts : List ℕ) :
    ∀ (ws : List ℕ) (rcols : List (List ℚ)) (wr : DF),
    getWindowsDelta S₁ xs ts ws rcols wr = getWindowsDelta S₂ xs ts ws rcols wr := by
  intro ws
  induction ws with
  | nil => intro rcols wr; rfl
  | cons w rest ih =>
    intro rcols wr
    cases rcols with
    | nil => rfl
    | cons r rcols' =>
      rw [getWindowsDelta, getWindowsDelta, windowDeltaFramePre_congr h,
        windowDeltaFrame_congr h, ih]

/-- C8: the whole pipeline consults the scorer family only at the fixed seed
42 (`IsolationForest(random_state=42)` in every view), so two runs on the
same series, timestamps and window list whose scorers agree at seed 42
return identical tables — with one fixed scorer the computation is a
deterministic function of its inputs. -/
theorem c8_determinism (S₁ S₂ : ScorerF) (inp : Inputs) (h : S₁ 42 = S₂ 42) :
    getIF S₁ inp = getIF S₂ inp := by
  simp only [getIF, getBase_congr h, getWindows_congr h, getBaseDelta_congr h,
    getWindowsDelta_congr h]

/-- A second scorer family that differs from `constScorerF` at every seed
except 42. -/
def otherScorerF : ScorerF :=
  fun n => if n = 0 then ⟨fun _ => [], fun _ => []⟩ else constScorer

/-- C8 witness: two families agreeing at seed 42 give identical runs. -/
theorem c8_determinism_witness :
    getIF constScorerF ⟨[1, 2], [3, 4], [], true, true, true, none⟩ =
      getIF otherScorerF ⟨[1, 2], [3, 4], [], true, true, true, none⟩ :=
  c8_determinism constScorerF otherScorerF ⟨[1, 2], [3, 4], [], true, true, true, none⟩ rfl

/-! ### Column-name disjointness -/

lemma date_incidents_not_mem_window_names (w : ℕ) :
    ("Date" ∉ windowNames w ∧ "Incidents" ∉ windowNames w) ∧
    ("Date" ∉ windowDeltaNames w ∧ "Incidents" ∉ windowDeltaNames w) := by
  have e1 : ("window" : String).length = 6 := rfl
  have e2 : ("windowDelta" : String).length = 11 := rfl
  have e3 : ("Scores" : String).length = 6 := rfl
  have e4 : ("Anomaly" : String).length = 7 := rfl
  have e5 : ("Incidents" : String).length = 9 := rfl
  have e6 : ("Date" : String).length = 4 := rfl
  refine ⟨⟨?_, ?_⟩, ?_, ?_⟩ <;>
  · intro hmem
    simp only [windowNames, windowDeltaNames, List.mem_cons, List.not_mem_nil, or_false] at hmem
    rcases hmem with hh | hh | hh <;>
    · have hl := congrArg String.length hh
      simp only [String.length_append] at hl
      omega

lemma count_concatMap_zero (f : ℕ → List String) (nm : String)
    (h : ∀ w, nm ∉ f w) : ∀ ws : List ℕ, (concatMap f ws).count nm = 0 := by
  intro ws
  induction ws with
  | nil => rfl
  | cons w rest ih =>
    rw [concatMap, List.count_append, ih, List.count_eq_zero.mpr (h w)]

lemma not_mem_concatMap (f : ℕ → List String) (nm : String)
    (h : ∀ w, nm ∉ f w) (ws : List ℕ) : nm ∉ concatMap f ws := by
  intro hmem
  rw [mem_concatMap] at hmem
  obtain ⟨w, _, hw⟩ := hmem
  exact h w hw

/-- C9: in the merged table only the Raw group contributes the plain `Date`
and `Incidents` columns — the Delta, Window and WindowDelta groups each drop
their own `Date` and `Incidents` columns (keeping only view-prefixed names)
before the merge — so for the Date-producing settings of the `time` flag the
result contains exactly one `Date` column and exactly one raw-value
`Incidents` column, however many views are requested. -/
theorem c9_unique_date_incidents (S : ScorerF) (inp : Inputs) (hWf : (S 42).Wf)
    (hv : ValidRun inp) (ht : inp.time = none ∨ inp.time = some true) :
    ∃ df, getIF S inp = .ok (PIndex.range inp.dataCol.length, df) ∧
      (df.map (·.1)).count "Date" = 1 ∧
      (df.map (·.1)).count "Incidents" = 1 ∧
      "Date" ∈ baseNames inp.time ∧ "Incidents" ∈ baseNames inp.time ∧
      "Date" ∉ deltaNames ++ concatMap windowNames inp.windowList ++
        concatMap windowDeltaNames inp.windowList ∧
      "Incidents" ∉ deltaNames ++ concatMap windowNames inp.windowList ++
        concatMap windowDeltaNames inp.windowList := by
  obtain ⟨df, heq, hnames, _, _⟩ := getIF_ok_spec S inp hWf hv ht
  have hwn := fun w => (date_incidents_not_mem_window_names w).1.1
  have hwi := fun w => (date_incidents_not_mem_window_names w).1.2
  have hwdn := fun w => (date_incidents_not_mem_window_names w).2.1
  have hwdi := fun w => (date_incidents_not_mem_window_names w).2.2
  have hbase : baseNames inp.time = ["baseScores", "Anomaly", "Incidents", "Date"] := by
    rcases ht with h | h <;> rw [h] <;> rfl
  refine ⟨df, heq, ?_, ?_, ?_, ?_, ?_, ?_⟩
  · rw [hnames, resultNames, List.count_append, List.count_append, List.count_append]
    rw [hbase, count_concatMap_zero windowNames "Date" hwn,
      count_concatMap_zero windowDeltaNames "Date" hwdn]
    decide
  · rw [hnames, resultNames, List.count_append, List.count_append, List.count_append]
    rw [hbase, count_concatMap_zero windowNames "Incidents" hwi,
      count_concatMap_zero windowDeltaNames "Incidents" hwdi]
    decide
  · rw [hbase]; decide
  · rw [hbase]; decide
  · intro hmem
    rw [List.mem_append, List.mem_append] at hmem
    rcases hmem with (hmem | hmem) | hmem
    · revert hmem; decide
    · exact not_mem_concatMap windowNames "Date" hwn inp.windowList hmem
    · exact not_mem_concatMap windowDeltaNames "Date" hwdn inp.windowList hmem
  · intro hmem
    rw [List.mem_append, List.mem_append] at hmem
    rcases hmem with (hmem | hmem) | hmem
    · revert hmem; decide
    · exact not_mem_concatMap windowNames "Incidents" hwi inp.windowList hmem
    · exact not_mem_concatMap windowDeltaNames "Incidents" hwdi inp.windowList hmem

/-- C9 witness: the unique Date and Incidents columns at a concrete run with
two windows. -/
theorem c9_unique_date_incidents_witness :
    ∃ df, getIF constScorerF ⟨[1, 2, 10, 3], [5, 6, 7, 8], [2, 3], true, true, true, none⟩ =
        .ok (PIndex.range ([1, 2, 10, 3] : List ℚ).length, df) ∧
      (df.map (·.1)).count "Date" = 1 ∧
      (df.map (·.1)).count "Incidents" = 1 ∧
      "Date" ∈ baseNames none ∧ "Incidents" ∈ baseNames none ∧
      "Date" ∉ deltaNames ++ concatMap windowNames [2, 3] ++
        concatMap windowDeltaNames [2, 3] ∧
      "Incidents" ∉ deltaNames ++ concatMap windowNames [2, 3] ++
        concatMap windowDeltaNames [2, 3] :=
  c9_unique_date_incidents constScorerF ⟨[1, 2, 10, 3], [5, 6, 7, 8], [2, 3], true, true, true, none⟩
    constScorer_wf (by decide) (Or.inl rfl)

/-- C10 counterexample: with `time = False` and an otherwise valid input the
claim promises a merged table that merely lacks a timestamp column, but the
program returns no table at all: the base frame indeed gets no `Date`
column, and the base plot's lookup of that absent column then aborts the run
with a KeyError. -/
theorem c10_counterexample :
    getIF constScorerF ⟨[1, 2], [3, 4], [], true, true, true, some false⟩ =
      .error "KeyError: Date" ∧
    colOf "Date" (baseFrame constScorerF [1, 2] [3, 4] (some false)) = none := ⟨rfl, rfl⟩

/-- C10 amended: the `time` flag is a three-way switch, not a toggle:
`time = None` yields a `Date` column of truncated calendar dates,
`time = True` keeps the full datetimes, and any other value (e.g. `False`)
adds no `Date` column to the base frame — whereupon the base plot's lookup
of the absent `Date` column raises a KeyError and the whole run aborts, so
no merged table is returned at all. -/
theorem c10_time_flag (S : ScorerF) (inp : Inputs)
    (hval : validateIF inp = true) (hx : 1 ≤ inp.dataCol.length)
    (ht : inp.time = some false) :
    colOf "Date" (baseFrame S inp.dataCol inp.timeCol none) =
      some (inp.timeCol.map (fun t => some (Cell.day t))) ∧
    colOf "Date" (baseFrame S inp.dataCol inp.timeCol (some true)) =
      some (inp.timeCol.map (fun t => some (Cell.dt t))) ∧
    colOf "Date" (baseFrame S inp.dataCol inp.timeCol (some false)) = none ∧
    getIF S inp = .error "KeyError: Date" := by
  rw [validateIF, Bool.and_eq_true, Bool.and_eq_true] at hval
  obtain ⟨⟨h1, h2⟩, h3⟩ := hval
  refine ⟨rfl, rfl, rfl, ?_⟩
  rw [getIF]
  rw [if_neg (by rw [h1]; simp), if_neg (by rw [h2]; simp), if_neg (by rw [h3]; simp)]
  have hB := getBase_keyError S inp.dataCol inp.timeCol hx
  rw [ht]
  simp only [hB]

/-- C10 amended witness: the three flag behaviours and the KeyError abort at
a concrete run with `time = False`. -/
theorem c10_time_flag_witness :
    colOf "Date" (baseFrame constScorerF [1, 2] [3, 4] none) =
      some (([3, 4] : List ℕ).map (fun t => some (Cell.day t))) ∧
    colOf "Date" (baseFrame constScorerF [1, 2] [3, 4] (some true)) =
      some (([3, 4] : List ℕ).map (fun t => some (Cell.dt t))) ∧
    colOf "Date" (baseFrame constScorerF [1, 2] [3, 4] (some false)) = none ∧
    getIF constScorerF ⟨[1, 2], [3, 4], [], true, true, true, some false⟩ =
      .error "KeyError: Date" :=
  c10_time_flag constScorerF ⟨[1, 2], [3, 4], [], true, true, true, some false⟩
    rfl (by decide) rfl

end IsoForest
